import Mathlib

/-!
Verification of the subscription-driven background-refresh cache layer of
the external-adapters repository.

The only transport code present in the repository sources is the finage
streaming (websocket) transport `packages/sources/finage-test/src/transport/stock-ws.ts`;
it is embedded faithfully below.  The framework components (RateLimiter,
SubscriptionSet, RequestCoordinator, batch transport) are referenced by the
repository only through tests, so they are modelled from the specification
text; each such definition carries a `Modelled from the spec:` comment.

JavaScript values relevant to the embedded code are modelled as follows:
a field that may be absent is `Option String` (`none` = `undefined`);
`Number(x)` is modelled on the decimal-string fragment as `Option ℚ`
(`none` = `NaN`); JS truthiness of a string field is `none`/empty ↦ false.
-/

namespace JsModel

/-- JS truthiness of a possibly-absent string field: `undefined` and the
empty string are falsy, every other string is truthy. -/
def truthy : Option String → Bool
  | none => false
  | some s => !s.isEmpty

/-- Value of a decimal digit character. -/
def digitVal (c : Char) : ℕ := c.toNat - 48

/-- Parse a non-empty all-digit character list. -/
def parseDigits (cs : List Char) : Option ℕ :=
  if cs ≠ [] ∧ cs.all Char.isDigit then
    some (cs.foldl (fun n c => 10 * n + digitVal c) 0)
  else none

/-- Split a character list at the first dot, if any. -/
def breakDot : List Char → (List Char × Option (List Char))
  | [] => ([], none)
  | c :: cs =>
    if c = '.' then ([], some cs)
    else
      let r := breakDot cs
      (c :: r.1, r.2)

/-- JS `Number(s)` on the non-negative decimal-string fragment:
`Number("") = 0`; digit strings and digit-dot-digit strings parse exactly;
anything else is `NaN` (`none`). -/
def jsStringToNumber (s : String) : Option ℚ :=
  match breakDot s.toList with
  | ([], none) => some 0
  | (whole, none) => (parseDigits whole).map (fun n => (n : ℚ))
  | (whole, some frac) =>
    if frac.contains '.' then none
    else
      match parseDigits whole, parseDigits frac with
      | some w, some f => some ((w : ℚ) + (f : ℚ) / (10 ^ frac.length))
      | _, _ => none

/-- JS `Number` applied to a possibly-absent field: `Number(undefined) = NaN`. -/
def jsNumber : Option String → Option ℚ
  | none => none
  | some s => jsStringToNumber s

/-- JS `+` on numbers; `NaN` propagates. -/
def jsAdd : Option ℚ → Option ℚ → Option ℚ
  | some x, some y => some (x + y)
  | _, _ => none

/-- JS `/ 2` on numbers; `NaN` propagates. -/
def jsHalf : Option ℚ → Option ℚ
  | some x => some (x / 2)
  | none => none

end JsModel

namespace StockWs

open JsModel

/-- Inbound provider push message of the finage stock websocket transport.
The TypeScript interface declares `s a p b : string`, `t : number`, but the
handler guards every field with truthiness because real messages may omit
them; absent fields are `none`. -/
structure Message where
  s : String
  a : Option String := none
  p : Option String := none
  b : Option String := none
  t : Int
deriving DecidableEq, Repr

/-- One result entry produced by the message handler: a cache write keyed
by `params.base`, with `response.result` and
`response.timestamps.providerIndicatedTimeUnixMs`. -/
structure ProviderResult where
  base : String
  result : Option ℚ
  providerIndicatedTimeUnixMs : Int
deriving DecidableEq, Repr

/-- The `handlers.message` function of `stock-ws.ts`:
returns `[]` when `!message.p && !message.a && !message.b`, otherwise the
result is `Number(message.p)` if `message.p` is truthy and
`(Number(message.a) + Number(message.b)) / 2` otherwise, wrapped in one
entry keyed by `message.s` with `providerIndicatedTimeUnixMs = message.t`. -/
def messageHandler (message : Message) : List ProviderResult :=
  if !truthy message.p && !truthy message.a && !truthy message.b then []
  else
    let result :=
      if truthy message.p then jsNumber message.p
      else jsHalf (jsAdd (jsNumber message.a) (jsNumber message.b))
    [{ base := message.s, result := result, providerIndicatedTimeUnixMs := message.t }]

/-- Parameters of one websocket subscription (`params.base`). -/
structure WsParams where
  base : String
deriving DecidableEq, Repr

/-- Subscribe/unsubscribe control frame `{ action, symbols }`. -/
structure ControlMessage where
  action : String
  symbols : String
deriving DecidableEq, Repr

/-- The `builders.subscribeMessage` function of `stock-ws.ts`. -/
def subscribeMessage (params : WsParams) : ControlMessage :=
  { action := "subscribe", symbols := params.base.toUpper }

/-- The `builders.unsubscribeMessage` function of `stock-ws.ts`. -/
def unsubscribeMessage (params : WsParams) : ControlMessage :=
  { action := "unsubscribe", symbols := params.base.toUpper }

end StockWs

namespace RateLimiter

/-- Modelled from the spec: the rate-limit tier configuration.  The
framework's RateLimiter implementation is not among the repository's source
files (only its test exercises it), so it is modelled from §4.1: "a mapping
of tier name → numeric ceiling over a fixed window ENUMERATED as
`{perSecond, perMinute, perHour, perDay, perMonth}`"; a `none` ceiling is a
tier with no configured ceiling. -/
structure TierLimits where
  perSecond : Option ℚ := none
  perMinute : Option ℚ := none
  perHour : Option ℚ := none
  perDay : Option ℚ := none
  perMonth : Option ℚ := none

/-- Modelled from the spec: the fixed window of each tier, in milliseconds
(month taken as 30 days), paired with its configured ceiling. -/
def tierWindows (c : TierLimits) : List (ℚ × Option ℚ) :=
  [(1000, c.perSecond), (60000, c.perMinute), (3600000, c.perHour),
   (86400000, c.perDay), (2592000000, c.perMonth)]

/-- Modelled from the spec: "each ceiling converts to an effective minimum
spacing `periodMs = windowMs / ceiling`"; "Tiers with no configured ceiling
are ignored". -/
def tierPeriods (c : TierLimits) : List ℚ :=
  (tierWindows c).filterMap (fun wc => wc.2.map (fun ceil => wc.1 / ceil))

/-- Modelled from the spec: "The limiter's effective period is
`max(periodMs)` across all configured, non-empty tiers". -/
def effectivePeriod (c : TierLimits) : ℚ :=
  (tierPeriods c).foldr max 0

/-- Modelled from the spec: the limiter's mutable state,
`RateLimitState.lastRequestAt`. -/
structure LimiterState where
  lastRequestAt : ℚ

/-- Modelled from the spec: "`msUntilNextExecution` returns
`max(0, effectivePeriod - (now - lastRequestAt))`". -/
def msUntilNextExecution (c : TierLimits) (st : LimiterState) (now : ℚ) : ℚ :=
  max 0 (effectivePeriod c - (now - st.lastRequestAt))

/-- Modelled from the spec: "`onExecute()` records that a call was just
issued (sets `lastRequestAt = now`)". -/
def onExecute (_st : LimiterState) (now : ℚ) : LimiterState :=
  { lastRequestAt := now }

/-- The configuration of the repository's rate-limit test:
`rateLimit1s : 1`, i.e. `perSecond = 1`. -/
def cfgPerSecond1 : TierLimits :=
  { perSecond := some 1 }

/-- A configuration whose per-second ceiling does not divide the window. -/
def cfgPerSecond3 : TierLimits :=
  { perSecond := some 3 }

end RateLimiter

namespace Executor

open RateLimiter

/-- Modelled from the spec: the background executor gated by the limiter
configured with `perSecond = 1`.  The executor state is the time of the
last issued call (`none` before the first call, when the limiter cannot
block).  An attempt at time `now` is permitted exactly when
`msUntilNextExecution` is `0`. -/
def permitted (st : Option ℕ) (now : ℕ) : Bool :=
  match st with
  | none => true
  | some l =>
    decide (msUntilNextExecution cfgPerSecond1 { lastRequestAt := (l : ℚ) } (now : ℚ) = 0)

/-- Modelled from the spec: one attempt of the background executor at time
`t`: if the limiter permits, the call is issued and `onExecute` records the
time; otherwise the state is unchanged. -/
def runStep (st : Option ℕ) (t : ℕ) : Bool × Option ℕ :=
  if permitted st t then (true, some t) else (false, st)

/-- Modelled from the spec: the limiter state of the executor under
continuous demand, after attempts at every millisecond `0, 1, …, k-1`. -/
def simState : ℕ → Option ℕ
  | 0 => none
  | k + 1 => (runStep (simState k) k).2

/-- Modelled from the spec: the number of outbound calls the executor under
continuous demand has issued over the attempts at `0, 1, …, k-1`. -/
def simCount : ℕ → ℕ
  | 0 => 0
  | k + 1 => simCount k + (if (runStep (simState k) k).1 then 1 else 0)

/-- Modelled from the spec: an arbitrary sequence of events issuing calls
at the listed times, each call permitted by the limiter state left by the
previous call.  Any order of attempts whatsoever can only issue calls
forming such a sequence. -/
inductive CallSeq : Option ℕ → List ℕ → Prop
  | nil (st : Option ℕ) : CallSeq st []
  | cons {st : Option ℕ} {t : ℕ} {ts : List ℕ} :
      permitted st t = true → CallSeq (some t) ts → CallSeq st (t :: ts)

end Executor

namespace SubscriptionSet

/-- Modelled from the spec: `SubscriptionEntry`:
`{ fingerprint, lastRequestedAt, expiresAt }` (§3). -/
structure SubscriptionEntry where
  fingerprint : String
  lastRequestedAt : ℕ
  expiresAt : ℕ
deriving DecidableEq, Repr

/-- Modelled from the spec: `registerRequest(fingerprint)` "upserts,
extends TTL" (§4.2): if an entry with the same fingerprint exists it is
refreshed in place (`lastRequestedAt = now`, `expiresAt = now + ttl`),
otherwise a new entry is appended. -/
def registerRequest (now ttl : ℕ) (fp : String) (s : List SubscriptionEntry) :
    List SubscriptionEntry :=
  if s.any (fun e => e.fingerprint = fp) then
    s.map (fun e =>
      if e.fingerprint = fp then
        { fingerprint := fp, lastRequestedAt := now, expiresAt := now + ttl }
      else e)
  else
    s ++ [{ fingerprint := fp, lastRequestedAt := now, expiresAt := now + ttl }]

end SubscriptionSet

namespace Coordinator

open SubscriptionSet

/-- A cache entry as seen by the request coordinator: a value with its
`writtenAt` timestamp. -/
structure CachedValue where
  value : ℚ
  writtenAt : ℕ
deriving DecidableEq, Repr

/-- Modelled from the spec: the polling loop of `handle` (§4.7): "Loop up
to `CACHE_POLLING_MAX_RETRIES` attempts, each separated by a configurable
backoff: check `ResponseCache.get(fingerprint)`; if present and written
after registration time, return it"; on exhaustion it serves whatever is
currently cached (possibly stale or absent).  `cacheAt w` is the cache
content after a total wait of `w` milliseconds; the returned pair is the
served entry and the total wait. -/
def pollLoop (cacheAt : ℕ → Option CachedValue) (regTime backoff : ℕ) :
    ℕ → ℕ → Option CachedValue × ℕ
  | waited, 0 => (cacheAt waited, waited)
  | waited, n + 1 =>
    match cacheAt waited with
    | some e =>
      if regTime < e.writtenAt then (some e, waited)
      else pollLoop cacheAt regTime backoff (waited + backoff) n
    | none => pollLoop cacheAt regTime backoff (waited + backoff) n

/-- Modelled from the spec: `handle(fingerprint)` (§4.7): registers the
fingerprint in the SubscriptionSet, then polls the cache; returns the new
subscription set, the served entry, and the total wait in milliseconds. -/
def handle (now ttl : ℕ) (fp : String) (subs : List SubscriptionEntry)
    (maxRetries backoff : ℕ) (cacheAt : ℕ → Option CachedValue) :
    List SubscriptionEntry × (Option CachedValue × ℕ) :=
  (registerRequest now ttl fp subs, pollLoop cacheAt now backoff 0 maxRetries)

end Coordinator

namespace BatchTransport

/-- Modelled from the spec: the state of the batch transport across ticks:
the response cache, the subscription set snapshot, and the number of
outbound provider calls issued so far. -/
structure BatchState where
  cache : String → Option ℚ
  subs : List String
  calls : ℕ

/-- Modelled from the spec: one background-refresh tick (§4.5): the
transport issues exactly one outbound call (the injected perform-request
function); `outcome` is `some resp` on success and `none` on failure.  On
success every subscribed fingerprint's cache entry is replaced; on failure
"do not write any CacheEntry for the affected fingerprints" and the
fingerprints remain in the subscription set. -/
def tick (outcome : Option (String → ℚ)) (st : BatchState) : BatchState :=
  match outcome with
  | some resp =>
    { cache := fun fp => if st.subs.contains fp then some (resp fp) else st.cache fp,
      subs := st.subs,
      calls := st.calls + 1 }
  | none =>
    { cache := st.cache, subs := st.subs, calls := st.calls + 1 }

/-- Modelled from the spec: a run of consecutive scheduled ticks with the
given outcomes; no retry is layered between ticks. -/
def runTicks (outcomes : List (Option (String → ℚ))) (st : BatchState) : BatchState :=
  outcomes.foldl (fun s o => tick o s) st

end BatchTransport

open JsModel StockWs RateLimiter Executor SubscriptionSet Coordinator BatchTransport

/-- The fingerprint occurrence count of a subscription set. -/
def countFp (g : String) (s : List SubscriptionEntry) : ℕ :=
  (s.map SubscriptionEntry.fingerprint).count g

/-- A subscription set is well formed when no fingerprint occurs more than
once. -/
def WellFormedSubs (s : List SubscriptionEntry) : Prop :=
  ∀ g : String, countFp g s ≤ 1

example : JsModel.jsNumber (some ("100")) = some 100 := by decide
example : JsModel.jsNumber (some ("")) = some 0 := by decide
example : JsModel.jsNumber none = none := rfl
example : StockWs.messageHandler { s := "BTC", p := some ("100"), t := 1000 } =
    [{ base := "BTC", result := some 100, providerIndicatedTimeUnixMs := 1000 }] := by decide

/-- C3: every malformed streaming message — one whose price, bid and ask
fields are all missing (or otherwise falsy) — makes the message handler
produce zero result entries, hence no cache write; the handler is a total
function, so the connection is never terminated by such a message. -/
theorem stockWs_malformed_message_yields_no_entries (m : Message)
    (hp : truthy m.p = false) (ha : truthy m.a = false) (hb : truthy m.b = false) :
    messageHandler m = [] := by
  simp [messageHandler, hp, ha, hb]

/-- Witness for C3: the concrete message `{s:"BTC", t:1000}` with neither a
price nor bid/ask fields yields no cache write. -/
theorem stockWs_malformed_message_yields_no_entries_witness :
    messageHandler { s := "BTC", t := 1000 } = [] :=
  stockWs_malformed_message_yields_no_entries { s := "BTC", t := 1000 } rfl rfl rfl

/-- C4: every streaming message with a truthy direct price field produces
exactly one cache entry, keyed by the message's symbol `s`, whose result is
`Number(p)` and whose `providerIndicatedTimeUnixMs` is the message's own
timestamp `t`. -/
theorem stockWs_price_message_single_entry (m : Message)
    (hp : truthy m.p = true) :
    messageHandler m =
      [{ base := m.s, result := jsNumber m.p, providerIndicatedTimeUnixMs := m.t }] := by
  simp [messageHandler, hp]

/-- Witness for C4: `{s:"BTC", p:"100", t:1000}` yields exactly the entry
keyed `"BTC"` with value `100` and provider time `1000`. -/
theorem stockWs_price_message_single_entry_witness :
    messageHandler { s := "BTC", p := some ("100"), t := 1000 } =
      [{ base := "BTC", result := some 100, providerIndicatedTimeUnixMs := 1000 }] := by
  rw [stockWs_price_message_single_entry { s := "BTC", p := some ("100"), t := 1000 } (by decide)]
  decide

/-- C5: every streaming message without a truthy price field but with
truthy bid and ask fields produces one cache entry whose result is the
arithmetic midpoint `(Number(a) + Number(b)) / 2`. -/
theorem stockWs_bid_ask_midpoint (m : Message) (x y : ℚ)
    (hp : truthy m.p = false) (ha : truthy m.a = true) (hb : truthy m.b = true)
    (hxa : jsNumber m.a = some x) (hxb : jsNumber m.b = some y) :
    messageHandler m =
      [{ base := m.s, result := some ((x + y) / 2), providerIndicatedTimeUnixMs := m.t }] := by
  simp [messageHandler, hp, ha, hb, hxa, hxb, jsAdd, jsHalf]

/-- Witness for C5: `{s:"BTC", a:"101", b:"99", t:1000}` yields the
midpoint value `100`. -/
theorem stockWs_bid_ask_midpoint_witness :
    messageHandler { s := "BTC", a := some ("101"), b := some ("99"), t := 1000 } =
      [{ base := "BTC", result := some 100, providerIndicatedTimeUnixMs := 1000 }] := by
  rw [stockWs_bid_ask_midpoint { s := "BTC", a := some ("101"), b := some ("99"), t := 1000 }
    101 99 (by decide) (by decide) (by decide) (by decide) (by decide)]
  norm_num

/-- C9: for every params value, the subscribe and unsubscribe control
messages both carry `symbols` equal to the uppercased `params.base`, and
they are identical except for the `action` field (`"subscribe"` vs
`"unsubscribe"`). -/
theorem stockWs_control_message_builders (params : WsParams) :
    subscribeMessage params =
      { action := "subscribe", symbols := params.base.toUpper } ∧
    unsubscribeMessage params =
      { action := "unsubscribe", symbols := params.base.toUpper } ∧
    (subscribeMessage params).symbols = (unsubscribeMessage params).symbols :=
  ⟨rfl, rfl, rfl⟩

/-- C10: truthiness, not existence, selects the price branch: a message
whose `p` field is present but the empty string (falsy, though
`Number("") = 0`) falls through to the bid/ask midpoint. -/
theorem stockWs_empty_price_falls_through_to_midpoint (m : Message) (x y : ℚ)
    (hp : m.p = some ("")) (ha : truthy m.a = true) (hb : truthy m.b = true)
    (hxa : jsNumber m.a = some x) (hxb : jsNumber m.b = some y) :
    messageHandler m =
      [{ base := m.s, result := some ((x + y) / 2), providerIndicatedTimeUnixMs := m.t }] ∧
    jsNumber m.p = some 0 := by
  have hp' : truthy m.p = false := by rw [hp]; rfl
  constructor
  · simp [messageHandler, hp', ha, hb, hxa, hxb, jsAdd, jsHalf]
  · rw [hp]; decide

/-- Witness for C10: `{s:"BTC", p:"", a:"101", b:"99", t:1000}` yields the
midpoint `100`, not `Number("") = 0`. -/
theorem stockWs_empty_price_falls_through_to_midpoint_witness :
    messageHandler { s := "BTC", p := some (""), a := some ("101"), b := some ("99"), t := 1000 } =
      [{ base := "BTC", result := some 100, providerIndicatedTimeUnixMs := 1000 }] ∧
    (100 : ℚ) ≠ 0 := by
  have h := stockWs_empty_price_falls_through_to_midpoint
    { s := "BTC", p := some (""), a := some ("101"), b := some ("99"), t := 1000 }
    101 99 rfl (by decide) (by decide) (by decide) (by decide)
  refine ⟨h.1.trans ?_, by norm_num⟩
  norm_num

/-- C6: with `CACHE_POLLING_MAX_RETRIES = 0`, `handle` serves whatever is
currently cached (possibly absent) with zero total wait: it never blocks
between poll attempts. -/
theorem coordinator_zero_retries_immediate (now ttl : ℕ) (fp : String)
    (subs : List SubscriptionEntry) (backoff : ℕ)
    (cacheAt : ℕ → Option CachedValue) :
    (handle now ttl fp subs 0 backoff cacheAt).2 = (cacheAt 0, 0) :=
  rfl

/-- `registerRequest` either leaves the fingerprint list unchanged (when
the fingerprint is already present) or appends the new fingerprint. -/
theorem registerRequest_fingerprints (now ttl : ℕ) (fp : String)
    (s : List SubscriptionEntry) :
    (registerRequest now ttl fp s).map SubscriptionEntry.fingerprint =
      if s.any (fun e => e.fingerprint = fp) then s.map SubscriptionEntry.fingerprint
      else s.map SubscriptionEntry.fingerprint ++ [fp] := by
  unfold registerRequest
  by_cases h : s.any (fun e => e.fingerprint = fp) = true
  · rw [if_pos h, if_pos h, List.map_map]
    refine List.map_congr_left ?_
    intro e _
    by_cases he : e.fingerprint = fp
    · simp [he]
    · simp [he]
  · rw [if_neg h, if_neg h, List.map_append]
    rfl

/-- Effect of one `registerRequest` on the occurrence count of any
fingerprint `g`. -/
theorem countFp_registerRequest (now ttl : ℕ) (fp g : String)
    (s : List SubscriptionEntry) :
    countFp g (registerRequest now ttl fp s) =
      if s.any (fun e => e.fingerprint = fp) then countFp g s
      else countFp g s + (if g = fp then 1 else 0) := by
  unfold countFp
  rw [registerRequest_fingerprints]
  by_cases h : s.any (fun e => e.fingerprint = fp) = true
  · rw [if_pos h, if_pos h]
  · rw [if_neg h, if_neg h, List.count_append]
    congr 1
    by_cases hg : g = fp
    · simp [hg]
    · simp [List.count_singleton, hg]

/-- `registerRequest` preserves well-formedness. -/
theorem registerRequest_wellFormed (now ttl : ℕ) (fp : String)
    (s : List SubscriptionEntry) (hs : WellFormedSubs s) :
    WellFormedSubs (registerRequest now ttl fp s) := by
  intro g
  rw [countFp_registerRequest]
  by_cases h : s.any (fun e => e.fingerprint = fp) = true
  · rw [if_pos h]; exact hs g
  · rw [if_neg h]
    by_cases hg : g = fp
    · rw [if_pos hg]
      have hzero : countFp g s = 0 := by
        unfold countFp
        refine List.count_eq_zero.mpr ?_
        intro hmem
        rcases List.mem_map.mp hmem with ⟨e, he, hfe⟩
        simp only [Bool.not_eq_true, List.any_eq_false] at h
        have hne := h e he
        simp only [decide_eq_false_iff_not] at hne
        exact hne (hfe.trans hg)
      omega
    · rw [if_neg hg]
      have := hs g
      omega

/-- Folding any sequence of registrations preserves well-formedness. -/
theorem foldl_registerRequest_wellFormed (ops : List (ℕ × ℕ × String)) :
    ∀ s : List SubscriptionEntry, WellFormedSubs s →
      WellFormedSubs (ops.foldl (fun t o => registerRequest o.1 o.2.1 o.2.2 t) s) := by
  induction ops with
  | nil => intro s hs; exact hs
  | cons o rest ih =>
    intro s hs
    exact ih _ (registerRequest_wellFormed o.1 o.2.1 o.2.2 s hs)

/-- C7: registration is idempotent: starting from the empty subscription
set, any sequence of `registerRequest` calls leaves at most one entry per
fingerprint; and re-registering an existing fingerprint changes neither
the fingerprint list nor the number of entries (the matching entry is
refreshed in place, so no duplicate is ever created). -/
theorem subscriptionSet_register_idempotent :
    (∀ (ops : List (ℕ × ℕ × String)) (g : String),
      countFp g (ops.foldl (fun t o => registerRequest o.1 o.2.1 o.2.2 t) []) ≤ 1) ∧
    (∀ (now ttl : ℕ) (fp : String) (s : List SubscriptionEntry),
      s.any (fun e => e.fingerprint = fp) = true →
      (registerRequest now ttl fp s).map SubscriptionEntry.fingerprint =
        s.map SubscriptionEntry.fingerprint ∧
      (registerRequest now ttl fp s).length = s.length) := by
  constructor
  · intro ops g
    exact foldl_registerRequest_wellFormed ops [] (fun g => by simp [countFp]) g
  · intro now ttl fp s h
    constructor
    · rw [registerRequest_fingerprints, if_pos h]
    · unfold registerRequest
      rw [if_pos h, List.length_map]

/-- Witness for C7: two registrations of the fingerprint `"F"` leave a
single entry, and re-registering `"F"` on a set already containing it
preserves the fingerprint list. -/
theorem subscriptionSet_register_idempotent_witness :
    countFp ("F")
      (([(0, 10, "F"), (5, 10, "F")] : List (ℕ × ℕ × String)).foldl
        (fun t o => registerRequest o.1 o.2.1 o.2.2 t) []) ≤ 1 ∧
    (registerRequest 5 10 "F"
      [{ fingerprint := "F", lastRequestedAt := 0, expiresAt := 10 }]).map
        SubscriptionEntry.fingerprint = ["F"] := by
  refine ⟨subscriptionSet_register_idempotent.1 [(0, 10, "F"), (5, 10, "F")] "F", ?_⟩
  rw [(subscriptionSet_register_idempotent.2 5 10 "F"
    [{ fingerprint := "F", lastRequestedAt := 0, expiresAt := 10 }] (by decide)).1]
  rfl

/-- C8: a failed outbound call writes no cache entry and removes no
fingerprint; over any number of consecutive failing ticks the cache and
subscription set are untouched while exactly one outbound call is issued
per tick (no extra retry is layered on the tick cadence); and the next
succeeding tick writes the fresh value for every subscribed fingerprint. -/
theorem batch_failure_no_cache_write :
    (∀ st : BatchState,
      (tick none st).cache = st.cache ∧ (tick none st).subs = st.subs ∧
      (tick none st).calls = st.calls + 1) ∧
    (∀ (k : ℕ) (st : BatchState),
      runTicks (List.replicate k none) st =
        { cache := st.cache, subs := st.subs, calls := st.calls + k }) ∧
    (∀ (k : ℕ) (st : BatchState) (resp : String → ℚ) (fp : String),
      st.subs.contains fp = true →
      (runTicks (List.replicate k none ++ [some resp]) st).cache fp = some (resp fp)) := by
  have hrep : ∀ (k : ℕ) (st : BatchState),
      runTicks (List.replicate k none) st =
        { cache := st.cache, subs := st.subs, calls := st.calls + k } := by
    intro k
    induction k with
    | zero => intro st; simp [runTicks]
    | succ k ih =>
      intro st
      rw [List.replicate_succ]
      show runTicks (List.replicate k none) (tick none st) = _
      rw [ih]
      simp [tick]
      omega
  refine ⟨fun st => ⟨rfl, rfl, rfl⟩, hrep, ?_⟩
  intro k st resp fp h
  unfold runTicks
  rw [List.foldl_append]
  show (tick (some resp) (runTicks (List.replicate k none) st)).cache fp = _
  rw [hrep k st]
  show (if st.subs.contains fp = true then some (resp fp) else st.cache fp) = some (resp fp)
  rw [if_pos h]

/-- Witness for C8: two failing ticks leave an empty cache and the
subscription `"A"` untouched while issuing two calls, and the following
succeeding tick writes the value `42` for `"A"`. -/
theorem batch_failure_no_cache_write_witness :
    (runTicks (List.replicate 2 none ++ [some (fun _ => 42)])
      { cache := fun _ => none, subs := ["A"], calls := 0 }).cache ("A") = some 42 ∧
    (runTicks (List.replicate 2 none)
      { cache := fun _ => none, subs := ["A"], calls := 0 }).calls = 2 := by
  constructor
  · exact batch_failure_no_cache_write.2.2 2
      { cache := fun _ => none, subs := ["A"], calls := 0 } (fun _ => 42) "A" (by decide)
  · rw [batch_failure_no_cache_write.2.1 2
      { cache := fun _ => none, subs := ["A"], calls := 0 }]

/-- Every element of a list of rationals is bounded by `foldr max 0`. -/
theorem le_foldr_max (l : List ℚ) : ∀ q ∈ l, q ≤ l.foldr max 0 := by
  induction l with
  | nil => intro q hq; simp at hq
  | cons a t ih =>
    intro q hq
    rcases List.mem_cons.mp hq with rfl | hqt
    · exact le_max_left _ _
    · exact (ih q hqt).trans (le_max_right _ _)

/-- `foldr max 0` of a list of rationals is an element of the list or `0`. -/
theorem foldr_max_mem_or_zero (l : List ℚ) :
    l.foldr max 0 ∈ l ∨ l.foldr max 0 = 0 := by
  induction l with
  | nil => right; rfl
  | cons a t ih =>
    rcases le_total (t.foldr max 0) a with hle | hle
    · left
      simp only [List.foldr_cons]
      rw [max_eq_left hle]
      exact List.mem_cons_self a t
    · rcases ih with hmem | hzero
      · left
        simp only [List.foldr_cons]
        rw [max_eq_right hle]
        exact List.mem_cons_of_mem a hmem
      · right
        simp only [List.foldr_cons]
        rw [max_eq_right hle, hzero]

/-- C1 (amended): the effective period bounds every configured tier period
and is one of them (when any is non-negative); `msUntilNextExecution`
returns exactly `max 0 (effectivePeriod - (now - lastRequestAt))`, which is
always non-negative, and it is an integer whenever the effective period and
the elapsed time are integers — but not in general (see the
counterexample). -/
theorem rateLimiter_period_and_wait (c : TierLimits) (st : LimiterState) (now : ℚ) :
    msUntilNextExecution c st now =
      max 0 (effectivePeriod c - (now - st.lastRequestAt)) ∧
    0 ≤ msUntilNextExecution c st now ∧
    (∀ q ∈ tierPeriods c, q ≤ effectivePeriod c) ∧
    ((∃ q ∈ tierPeriods c, 0 ≤ q) → effectivePeriod c ∈ tierPeriods c) ∧
    (∀ P D : ℤ, effectivePeriod c = (P : ℚ) → now - st.lastRequestAt = (D : ℚ) →
      ∃ k : ℤ, 0 ≤ k ∧ msUntilNextExecution c st now = (k : ℚ)) := by
  refine ⟨rfl, le_max_left _ _, le_foldr_max _, ?_, ?_⟩
  · rintro ⟨q, hq, hq0⟩
    rcases foldr_max_mem_or_zero (tierPeriods c) with hmem | hzero
    · exact hmem
    · have heff : effectivePeriod c = 0 := hzero
      rw [heff]
      have hq' : q = 0 :=
        le_antisymm (hzero ▸ le_foldr_max (tierPeriods c) q hq) hq0
      rw [← hq']
      exact hq
  · intro P D hP hD
    refine ⟨max 0 (P - D), le_max_left _ _, ?_⟩
    unfold msUntilNextExecution
    rw [hP, hD]
    push_cast
    rfl

/-- Counterexample to C1 as stated: with `perSecond = 3` (a ceiling that
does not divide its 1000 ms window) the returned wait is `1000/3` ms,
which is not an integer. -/
theorem rateLimiter_wait_not_integer :
    ¬ ∃ k : ℤ, msUntilNextExecution cfgPerSecond3 { lastRequestAt := 0 } 0 = (k : ℚ) := by
  have hper : effectivePeriod cfgPerSecond3 = 1000 / 3 := by
    have h1 : effectivePeriod cfgPerSecond3 = max (1000 / 3 : ℚ) 0 := rfl
    rw [h1, max_eq_left (by norm_num : (0 : ℚ) ≤ 1000 / 3)]
  have hval : msUntilNextExecution cfgPerSecond3 { lastRequestAt := 0 } 0 = 1000 / 3 := by
    show max 0 (effectivePeriod cfgPerSecond3 - ((0 : ℚ) - 0)) = 1000 / 3
    rw [hper, max_eq_right (by norm_num : (0 : ℚ) ≤ 1000 / 3 - (0 - 0))]
    ring
  rintro ⟨k, hk⟩
  rw [hval] at hk
  have h3 : ((3 * k : ℤ) : ℚ) = 1000 := by
    push_cast
    rw [← hk]
    ring
  have h4 : (3 * k : ℤ) = 1000 := by exact_mod_cast h3
  omega

/-- Witness for C1: with `perSecond = 1`, state `lastRequestAt = 0` and
`now = 500`, the wait is non-negative, the effective period is one of the
tier periods, and the wait is an integer. -/
theorem rateLimiter_period_and_wait_witness :
    0 ≤ msUntilNextExecution cfgPerSecond1 { lastRequestAt := 0 } 500 ∧
    effectivePeriod cfgPerSecond1 ∈ tierPeriods cfgPerSecond1 ∧
    ∃ k : ℤ, 0 ≤ k ∧ msUntilNextExecution cfgPerSecond1 { lastRequestAt := 0 } 500 = (k : ℚ) := by
  obtain ⟨h1, h2, h3, h4, h5⟩ :=
    rateLimiter_period_and_wait cfgPerSecond1 { lastRequestAt := 0 } 500
  refine ⟨h2, h4 ⟨1000 / 1, ?_, by norm_num⟩, h5 1000 500 ?_ ?_⟩
  · have ht : tierPeriods cfgPerSecond1 = [1000 / 1] := rfl
    rw [ht]
    exact List.mem_singleton.mpr rfl
  · have h6 : effectivePeriod cfgPerSecond1 = max (1000 / 1 : ℚ) 0 := rfl
    rw [h6, max_eq_left (by norm_num : (0 : ℚ) ≤ 1000 / 1)]
    norm_num
  · show (500 : ℚ) - 0 = ((500 : ℤ) : ℚ)
    norm_num

/-- With `perSecond = 1` the effective period is 1000 ms. -/
theorem effectivePeriod_cfgPerSecond1 : effectivePeriod cfgPerSecond1 = 1000 := by
  have h1 : effectivePeriod cfgPerSecond1 = max (1000 / 1 : ℚ) 0 := rfl
  rw [h1, max_eq_left (by norm_num : (0 : ℚ) ≤ 1000 / 1)]
  norm_num

/-- Before the first call the limiter never blocks. -/
theorem permitted_none (t : ℕ) : permitted none t = true := rfl

/-- After a call at time `l`, an attempt at time `t` is permitted exactly
when a full period of 1000 ms has elapsed. -/
theorem permitted_some_iff (l t : ℕ) :
    permitted (some l) t = true ↔ l + 1000 ≤ t := by
  unfold permitted
  rw [decide_eq_true_iff]
  show max 0 (effectivePeriod cfgPerSecond1 - ((t : ℚ) - (l : ℚ))) = 0 ↔ _
  rw [effectivePeriod_cfgPerSecond1, max_eq_left_iff, sub_nonpos]
  constructor
  · intro h
    have h' : (l : ℚ) + 1000 ≤ (t : ℚ) := by linarith
    exact_mod_cast h'
  · intro h
    have h' : (l : ℚ) + 1000 ≤ (t : ℚ) := by exact_mod_cast h
    linarith

/-- Under continuous demand the last call before attempt `k + 1` happened
at the largest multiple of 1000 not exceeding `k`. -/
theorem simState_succ (k : ℕ) : simState (k + 1) = some (1000 * (k / 1000)) := by
  induction k with
  | zero => rfl
  | succ k ih =>
    show (runStep (simState (k + 1)) (k + 1)).2 = _
    rw [ih]
    unfold runStep
    by_cases h : 1000 * (k / 1000) + 1000 ≤ k + 1
    · rw [if_pos ((permitted_some_iff _ _).mpr h)]
      show some (k + 1) = some (1000 * ((k + 1) / 1000))
      congr 1
      omega
    · rw [if_neg (fun hp => h ((permitted_some_iff _ _).mp hp))]
      show some (1000 * (k / 1000)) = some (1000 * ((k + 1) / 1000))
      congr 1
      omega

/-- Under continuous demand exactly `k / 1000 + 1` calls are issued over
the attempts at `0, …, k`. -/
theorem simCount_succ (k : ℕ) : simCount (k + 1) = k / 1000 + 1 := by
  induction k with
  | zero => rfl
  | succ k ih =>
    show simCount (k + 1) + (if (runStep (simState (k + 1)) (k + 1)).1 then 1 else 0) = _
    rw [ih, simState_succ]
    unfold runStep
    by_cases h : 1000 * (k / 1000) + 1000 ≤ k + 1
    · rw [if_pos ((permitted_some_iff _ _).mpr h)]
      show k / 1000 + 1 + 1 = (k + 1) / 1000 + 1
      omega
    · rw [if_neg (fun hp => h ((permitted_some_iff _ _).mp hp))]
      show k / 1000 + 1 + 0 = (k + 1) / 1000 + 1
      omega

/-- C2: with `perSecond = 1` (period 1000 ms), the executor under
continuous demand issues exactly `N` outbound calls over every `N`-second
window, and in any sequence of events whatsoever in which each call is
permitted by the limiter state left by the previous one, consecutive calls
are at least 1000 ms apart — no sequence of events can call the provider
faster than the configured rate. -/
theorem rateLimiter_one_per_second :
    (∀ N : ℕ, simCount (N * 1000) = N) ∧
    (∀ (st : Option ℕ) (ts : List ℕ), CallSeq st ts →
      List.Chain' (fun x y => x + 1000 ≤ y) ts) := by
  constructor
  · intro N
    cases N with
    | zero => rfl
    | succ n =>
      have hsh : n * 1000 + 999 + 1 = (n + 1) * 1000 := by ring
      rw [← hsh, simCount_succ]
      omega
  · intro st ts h
    induction h with
    | nil => exact List.chain'_nil
    | cons hp hrest ih =>
      cases hrest with
      | nil => exact List.chain'_singleton _
      | cons hp2 hrest2 =>
        exact List.Chain'.cons ((permitted_some_iff _ _).mp hp2) ih

/-- Witness for C2: three calls over three seconds of continuous demand,
and a concrete permitted call sequence is at least 1000 ms apart. -/
theorem rateLimiter_one_per_second_witness :
    simCount (3 * 1000) = 3 ∧
    List.Chain' (fun x y => x + 1000 ≤ y) [5, 1200, 2900] :=
  ⟨rateLimiter_one_per_second.1 3,
   rateLimiter_one_per_second.2 none [5, 1200, 2900]
     (CallSeq.cons (permitted_none 5)
       (CallSeq.cons ((permitted_some_iff 5 1200).mpr (by omega))
         (CallSeq.cons ((permitted_some_iff 1200 2900).mpr (by omega))
           (CallSeq.nil (some 2900)))))⟩
